import Mathlib

/-!
Verification of `refactor_solid.py`: a student course-registration validator
built from three rules (SKS limit, prerequisites, schedule conflict) run in
order by `RegistrationService.validate`, short-circuiting on the first failure.

The embedding is shallow: the student record (a Python dict with fixed keys)
becomes the structure `StudentData`; each rule class becomes a constructor of
the inductive `Rule` together with a `validate` function translated from the
corresponding Python method; the service loop becomes structural recursion over
the rule list.  A second, lower-level model (`Val` / `Except`) embeds the same
methods over raw Python-dict values so that absence of exceptions on
well-formed records can be stated.  Logging calls have no observable effect on
the returned values and are not modelled.
-/

namespace RefactorSolid

/-- A schedule slot: a Python dict `{"hari": ..., "jam": ...}` (day, time). -/
structure Jadwal where
  hari : String
  jam : String
deriving DecidableEq, Repr

/-- The student record dict consumed by the rules: keys `sks`, `prasyarat`,
`sudah_lulus`, `jadwal`, `jadwal_terambil` of `student_data`. -/
structure StudentData where
  sks : Int
  prasyarat : List String
  sudah_lulus : List String
  jadwal : Jadwal
  jadwal_terambil : List Jadwal
deriving DecidableEq, Repr

/-- The concrete rule objects of the program: `SksLimitRule(max_sks)`,
`PrerequisiteRule()`, `JadwalBentrokRule()`. -/
inductive Rule where
  | sksLimitRule (max_sks : Int)
  | prerequisiteRule
  | jadwalBentrokRule
deriving DecidableEq, Repr

/-- `SksLimitRule.validate`: `if data['sks'] <= self.max_sks: return True`,
otherwise `return False`. -/
def SksLimitRule.validate (max_sks : Int) (data : StudentData) : Bool :=
  if data.sks ≤ max_sks then true else false

/-- The list comprehension in `PrerequisiteRule.validate`:
`[course for course in data["prasyarat"] if course not in data["sudah_lulus"]]`. -/
def PrerequisiteRule.missing (data : StudentData) : List String :=
  data.prasyarat.filter (fun course => !(data.sudah_lulus.contains course))

/-- `PrerequisiteRule.validate`: `if not missing: return True`, otherwise
`return False`. -/
def PrerequisiteRule.validate (data : StudentData) : Bool :=
  if PrerequisiteRule.missing data = [] then true else false

/-- The `for item in data["jadwal_terambil"]` loop in
`JadwalBentrokRule.validate`: `return False` on the first item whose `hari`
and `jam` both match, `return True` after the loop. -/
def JadwalBentrokRule.scan (hari jam : String) : List Jadwal → Bool
  | [] => true
  | item :: rest =>
    if item.hari = hari && item.jam = jam then false
    else JadwalBentrokRule.scan hari jam rest

/-- `JadwalBentrokRule.validate`: reads `data["jadwal"]["hari"]` and
`data["jadwal"]["jam"]`, then scans `data["jadwal_terambil"]`. -/
def JadwalBentrokRule.validate (data : StudentData) : Bool :=
  JadwalBentrokRule.scan data.jadwal.hari data.jadwal.jam data.jadwal_terambil

/-- Iteration-count aid for the same loop: the items the loop body
examines, in order.  On a match the matching item is the last one examined and
the loop stops, so items after the first match are absent. -/
def JadwalBentrokRule.scanVisited (hari jam : String) : List Jadwal → List Jadwal
  | [] => []
  | item :: rest =>
    if item.hari = hari && item.jam = jam then [item]
    else item :: JadwalBentrokRule.scanVisited hari jam rest

/-- Dynamic dispatch of `rule.validate(data)` over the three rule classes. -/
def Rule.validate : Rule → StudentData → Bool
  | .sksLimitRule max_sks, data => SksLimitRule.validate max_sks data
  | .prerequisiteRule, data => PrerequisiteRule.validate data
  | .jadwalBentrokRule, data => JadwalBentrokRule.validate data

/-- `RegistrationService.__init__`: the service stores the rule list. -/
structure RegistrationService where
  rules : List Rule
deriving DecidableEq, Repr

/-- The `for rule in self.rules` loop of `RegistrationService.validate`:
`if not rule.validate(data): return False`, and `return True` after the loop. -/
def RegistrationService.validateList : List Rule → StudentData → Bool
  | [], _ => true
  | rule :: rest, data =>
    if !(Rule.validate rule data) then false
    else RegistrationService.validateList rest data

/-- `RegistrationService.validate(data)`. -/
def RegistrationService.validate (s : RegistrationService) (data : StudentData) :
    Bool :=
  RegistrationService.validateList s.rules data

/-- Call-count instrumentation for the same loop: the list of rules whose
`validate` method the loop actually invokes, in invocation order.  A rule that
passes is recorded and the loop continues; a rule that fails is recorded and
the loop stops, so later rules are absent. -/
def RegistrationService.invoked : List Rule → StudentData → List Rule
  | [], _ => []
  | rule :: rest, data =>
    if Rule.validate rule data then rule :: RegistrationService.invoked rest data
    else [rule]

/-- The hardcoded sample record `student_data` from the `__main__` block. -/
def student_data : StudentData where
  sks := 20
  prasyarat := ["Algoritma", "Struktur Data"]
  sudah_lulus := ["Algoritma"]
  jadwal := { hari := "Senin", jam := "08:00" }
  jadwal_terambil := [{ hari := "Senin", jam := "08:00" }]

/-- The rule list built in the `__main__` block. -/
def mainRules : List Rule :=
  [Rule.sksLimitRule 24, Rule.prerequisiteRule, Rule.jadwalBentrokRule]

/-! State-passing variants.  The Python record is a mutable dict, so the frame
claim (no rule mutates the record) is made statable by threading the record
state explicitly: each method body is re-translated statement by statement,
returning the record alongside the boolean.  None of the method bodies contains
an assignment into `data`, so each translated statement passes the record
through unchanged. -/

/-- `SksLimitRule.validate` with the record state threaded explicitly. -/
def SksLimitRule.validateS (max_sks : Int) (data : StudentData) :
    Bool × StudentData :=
  if data.sks ≤ max_sks then (true, data) else (false, data)

/-- `PrerequisiteRule.validate` with the record state threaded explicitly. -/
def PrerequisiteRule.validateS (data : StudentData) : Bool × StudentData :=
  let missing := data.prasyarat.filter (fun course => !(data.sudah_lulus.contains course))
  if missing = [] then (true, data) else (false, data)

/-- `JadwalBentrokRule.validate` with the record state threaded explicitly;
the loop body only reads `item`, `hari`, `jam`. -/
def JadwalBentrokRule.scanS (hari jam : String) :
    List Jadwal → StudentData → Bool × StudentData
  | [], data => (true, data)
  | item :: rest, data =>
    if item.hari = hari && item.jam = jam then (false, data)
    else JadwalBentrokRule.scanS hari jam rest data

/-- `JadwalBentrokRule.validate` with the record state threaded explicitly. -/
def JadwalBentrokRule.validateS (data : StudentData) : Bool × StudentData :=
  JadwalBentrokRule.scanS data.jadwal.hari data.jadwal.jam data.jadwal_terambil data

/-- Dispatch of `rule.validate(data)` in the state-passing model. -/
def Rule.validateS : Rule → StudentData → Bool × StudentData
  | .sksLimitRule max_sks, data => SksLimitRule.validateS max_sks data
  | .prerequisiteRule, data => PrerequisiteRule.validateS data
  | .jadwalBentrokRule, data => JadwalBentrokRule.validateS data

/-- The service loop in the state-passing model: the record returned by each
rule call is the one handed to the next rule. -/
def RegistrationService.validateListS : List Rule → StudentData → Bool × StudentData
  | [], data => (true, data)
  | rule :: rest, data =>
    match Rule.validateS rule data with
    | (ok, data1) =>
      if !ok then (false, data1)
      else RegistrationService.validateListS rest data1

/-- A call to `service.validate(data)` viewed as acting on the service object
itself: the method reads `self.rules` and never reassigns or mutates it, so the
service state after the call is the state before it. -/
def RegistrationService.validateCall (s : RegistrationService) (data : StudentData) :
    Bool × RegistrationService :=
  (RegistrationService.validateList s.rules data, s)

/-! Raw-value model.  To state that no exception escapes a validation call on a
well-formed record, the same methods are embedded once more over raw Python
values (`Val`): dict indexing can raise `KeyError`, iteration and comparison
can raise `TypeError`, and each method returns `Except String Bool`.  The
equality operator `==` is total in Python and is modelled by `valEq`
(structural; the program only ever compares strings, where this coincides with
Python's semantics). -/

/-- A raw Python value as used by the program: int, str, list or dict. -/
inductive Val where
  | vInt (n : Int)
  | vStr (s : String)
  | vList (items : List Val)
  | vDict (entries : List (String × Val))

mutual

/-- Python `==` on raw values, total (never raises).  The program compares only
strings; across types `==` is `False`. -/
def valEq : Val → Val → Bool
  | .vInt a, .vInt b => a == b
  | .vStr a, .vStr b => a == b
  | .vList a, .vList b => valEqList a b
  | .vDict a, .vDict b => valEqEntries a b
  | _, _ => false

/-- Elementwise `==` on lists. -/
def valEqList : List Val → List Val → Bool
  | [], [] => true
  | x :: xs, y :: ys => valEq x y && valEqList xs ys
  | _, _ => false

/-- Entrywise `==` on dict entries (the program never compares two dicts). -/
def valEqEntries : List (String × Val) → List (String × Val) → Bool
  | [], [] => true
  | (k1, v1) :: xs, (k2, v2) :: ys => k1 == k2 && valEq v1 v2 && valEqEntries xs ys
  | _, _ => false

end

/-- Python dict indexing `d[k]`: the value at the key, or `KeyError`. -/
def dictGet (entries : List (String × Val)) (k : String) : Except String Val :=
  match entries.find? (fun e => e.1 == k) with
  | some e => Except.ok e.2
  | none => Except.error ("KeyError: " ++ k)

/-- Subscripting a raw value: only dicts are indexable by string keys here. -/
def asDict : Val → Except String (List (String × Val))
  | .vDict entries => Except.ok entries
  | _ => Except.error "TypeError: value is not a dict"

/-- Iterating a raw value with `for`: only lists are iterated here. -/
def asList : Val → Except String (List Val)
  | .vList items => Except.ok items
  | _ => Except.error "TypeError: value is not iterable"

/-- Python `<=` between a raw value and an int: `TypeError` unless it is an
int. -/
def valLeInt (v : Val) (bound : Int) : Except String Bool :=
  match v with
  | .vInt n => Except.ok (decide (n ≤ bound))
  | _ => Except.error "TypeError: unorderable"

/-- `SksLimitRule.validate` over raw values. -/
def SksLimitRule.validateE (max_sks : Int) (data : Val) : Except String Bool := do
  let entries ← asDict data
  let sksVal ← dictGet entries "sks"
  let ok ← valLeInt sksVal max_sks
  if ok then return true else return false

/-- `PrerequisiteRule.validate` over raw values: both `data["prasyarat"]` and
`data["sudah_lulus"]` must be lists; `in` on a list is elementwise `==`. -/
def PrerequisiteRule.validateE (data : Val) : Except String Bool := do
  let entries ← asDict data
  let prasVal ← dictGet entries "prasyarat"
  let lulusVal ← dictGet entries "sudah_lulus"
  let pras ← asList prasVal
  let lulus ← asList lulusVal
  let missing := pras.filter (fun course => !(lulus.any (valEq course)))
  if missing.isEmpty then return true else return false

/-- The loop of `JadwalBentrokRule.validate` over raw values: each `item` is
indexed at `"hari"` and `"jam"`. -/
def JadwalBentrokRule.scanE (hari jam : Val) : List Val → Except String Bool
  | [] => Except.ok true
  | item :: rest => do
    let ientries ← asDict item
    let ihari ← dictGet ientries "hari"
    let ijam ← dictGet ientries "jam"
    if valEq ihari hari && valEq ijam jam then return false
    else JadwalBentrokRule.scanE hari jam rest

/-- `JadwalBentrokRule.validate` over raw values. -/
def JadwalBentrokRule.validateE (data : Val) : Except String Bool := do
  let entries ← asDict data
  let jadwalVal ← dictGet entries "jadwal"
  let jentries ← asDict jadwalVal
  let hari ← dictGet jentries "hari"
  let jam ← dictGet jentries "jam"
  let terambilVal ← dictGet entries "jadwal_terambil"
  let items ← asList terambilVal
  JadwalBentrokRule.scanE hari jam items

/-- Dispatch of `rule.validate(data)` over raw values. -/
def Rule.validateE : Rule → Val → Except String Bool
  | .sksLimitRule max_sks, data => SksLimitRule.validateE max_sks data
  | .prerequisiteRule, data => PrerequisiteRule.validateE data
  | .jadwalBentrokRule, data => JadwalBentrokRule.validateE data

/-- The service loop over raw values: an exception raised by a rule propagates
uncaught. -/
def RegistrationService.validateListE : List Rule → Val → Except String Bool
  | [], _ => Except.ok true
  | rule :: rest, data => do
    let ok ← Rule.validateE rule data
    if !ok then return false
    else RegistrationService.validateListE rest data

/-- The raw-dict form of a schedule slot. -/
def Jadwal.toVal (j : Jadwal) : Val :=
  Val.vDict [("hari", Val.vStr j.hari), ("jam", Val.vStr j.jam)]

/-- The raw-dict form of a well-formed student record: exactly the five keys of
the data model, with the field types of §3. -/
def StudentData.toVal (d : StudentData) : Val :=
  Val.vDict
    [("sks", Val.vInt d.sks),
     ("prasyarat", Val.vList (d.prasyarat.map Val.vStr)),
     ("sudah_lulus", Val.vList (d.sudah_lulus.map Val.vStr)),
     ("jadwal", d.jadwal.toVal),
     ("jadwal_terambil", Val.vList (d.jadwal_terambil.map Jadwal.toVal))]

/-! Helper lemmas shared by the claim theorems. -/

/-- The schedule-conflict loop leaves the record unchanged. -/
theorem scanS_snd (hari jam : String) (l : List Jadwal) (data : StudentData) :
    (JadwalBentrokRule.scanS hari jam l data).2 = data := by
  induction l with
  | nil => rfl
  | cons item rest ih =>
    simp only [JadwalBentrokRule.scanS]
    split
    · rfl
    · exact ih

/-- Every rule, in the state-passing model, returns the record it was given. -/
theorem validateS_snd (r : Rule) (data : StudentData) :
    (Rule.validateS r data).2 = data := by
  cases r with
  | sksLimitRule max_sks =>
    simp only [Rule.validateS, SksLimitRule.validateS]
    split <;> rfl
  | prerequisiteRule =>
    simp only [Rule.validateS, PrerequisiteRule.validateS]
    split <;> rfl
  | jadwalBentrokRule =>
    exact scanS_snd _ _ _ _

/-- The service loop, in the state-passing model, returns the record it was
given. -/
theorem validateListS_snd (rules : List Rule) (data : StudentData) :
    (RegistrationService.validateListS rules data).2 = data := by
  induction rules with
  | nil => rfl
  | cons rule rest ih =>
    simp only [RegistrationService.validateListS]
    cases hv : Rule.validateS rule data with
    | mk ok data1 =>
      have hd : data1 = data := by
        have h2 := validateS_snd rule data
        rw [hv] at h2
        exact h2
      subst hd
      split
      · rfl
      · exact ih

/-- C6: no rule's validate, and no service validate over any rule sequence,
mutates the student record: in the state-passing translation the record after
the call equals the record before it. -/
theorem record_not_mutated (r : Rule) (rules : List Rule) (data : StudentData) :
    (Rule.validateS r data).2 = data ∧
    (RegistrationService.validateListS rules data).2 = data :=
  ⟨validateS_snd r data, validateListS_snd rules data⟩

/-- C8: two successive calls to `RegistrationService.validate` with the same
record return the same boolean, and the service state after a call is the
state before it (no hidden state is carried between calls). -/
theorem validate_deterministic_across_calls (s : RegistrationService)
    (data : StudentData) :
    ((RegistrationService.validateCall s data).2.validateCall data).1 =
      (RegistrationService.validateCall s data).1 ∧
    (RegistrationService.validateCall s data).2 = s :=
  ⟨rfl, rfl⟩

/-- C9: a service built with an empty rule list validates every record to
true. -/
theorem empty_rules_validate_true (data : StudentData) :
    RegistrationService.validate ⟨[]⟩ data = true := rfl

/-- C4: `SksLimitRule` passes exactly the records whose `sks` does not exceed
`max_sks`: it returns true when `sks ≤ max_sks` (so the boundary
`sks = max_sks` passes) and false when `sks > max_sks`. -/
theorem sks_limit_rule_spec (max_sks : Int) (data : StudentData) :
    (data.sks ≤ max_sks → SksLimitRule.validate max_sks data = true) ∧
    (max_sks < data.sks → SksLimitRule.validate max_sks data = false) := by
  constructor
  · intro h
    simp [SksLimitRule.validate, h]
  · intro h
    simp [SksLimitRule.validate, not_le.mpr h]

/-- Witness for `sks_limit_rule_spec`: the sample record (sks 20, bound 24)
passes, a 24-credit record passes at the boundary, a 30-credit record fails. -/
theorem sks_limit_rule_spec_witness :
    SksLimitRule.validate 24 student_data = true ∧
    SksLimitRule.validate 24 ⟨24, [], [], ⟨"Senin", "08:00"⟩, []⟩ = true ∧
    SksLimitRule.validate 24 ⟨30, [], [], ⟨"Senin", "08:00"⟩, []⟩ = false :=
  ⟨(sks_limit_rule_spec 24 student_data).1 (by decide),
   (sks_limit_rule_spec 24 ⟨24, [], [], ⟨"Senin", "08:00"⟩, []⟩).1 (by decide),
   (sks_limit_rule_spec 24 ⟨30, [], [], ⟨"Senin", "08:00"⟩, []⟩).2 (by decide)⟩

/-- C2: on the hardcoded sample, the service returns false; the SKS rule is
invoked once and passes, the prerequisite rule is invoked once and fails with
missing `["Struktur Data"]`, and the pipeline short-circuits there, never
invoking the schedule-conflict rule. -/
theorem main_scenario :
    RegistrationService.validate ⟨mainRules⟩ student_data = false ∧
    RegistrationService.invoked mainRules student_data =
      [Rule.sksLimitRule 24, Rule.prerequisiteRule] ∧
    Rule.validate (Rule.sksLimitRule 24) student_data = true ∧
    Rule.validate Rule.prerequisiteRule student_data = false ∧
    PrerequisiteRule.missing student_data = ["Struktur Data"] ∧
    (RegistrationService.invoked mainRules student_data).count
      (Rule.sksLimitRule 24) = 1 ∧
    (RegistrationService.invoked mainRules student_data).count
      Rule.prerequisiteRule = 1 ∧
    (RegistrationService.invoked mainRules student_data).count
      Rule.jadwalBentrokRule = 0 := by
  decide

/-- The service loop returns true exactly when every rule in the list passes. -/
theorem validateList_eq_all (rules : List Rule) (data : StudentData) :
    RegistrationService.validateList rules data = true ↔
      ∀ r ∈ rules, Rule.validate r data = true := by
  induction rules with
  | nil => simp [RegistrationService.validateList]
  | cons rule rest ih =>
    cases h : Rule.validate rule data <;>
      simp [RegistrationService.validateList, h, ih]

/-- When every rule before `fl` passes and `fl` fails, the service loop
returns false and invokes exactly the rules up to and including `fl`. -/
theorem validateList_first_failure (data : StudentData) :
    ∀ pre fl post, (∀ r ∈ pre, Rule.validate r data = true) →
      Rule.validate fl data = false →
      RegistrationService.validateList (pre ++ fl :: post) data = false ∧
      RegistrationService.invoked (pre ++ fl :: post) data = pre ++ [fl] := by
  intro pre
  induction pre with
  | nil =>
    intro fl post _ hf
    constructor
    · simp [RegistrationService.validateList, hf]
    · simp [RegistrationService.invoked, hf]
  | cons p ps ih =>
    intro fl post hpre hf
    have hp : Rule.validate p data = true := hpre p (by simp)
    have hrest := ih fl post (fun r hr => hpre r (List.mem_cons_of_mem _ hr)) hf
    constructor
    · show RegistrationService.validateList (p :: (ps ++ fl :: post)) data = false
      simp [RegistrationService.validateList, hp, hrest.1]
    · show RegistrationService.invoked (p :: (ps ++ fl :: post)) data = p :: (ps ++ [fl])
      simp [RegistrationService.invoked, hp, hrest.2]

/-- C1: the service validates a record to true exactly when every rule in its
sequence passes; when the sequence decomposes as passing rules, then a failing
rule `fl`, then a remainder, the service returns false and the rules whose
validate is invoked are exactly the passing ones followed by `fl` — none of
the subsequent rules is invoked. -/
theorem registration_validate_spec (rules : List Rule) (data : StudentData) :
    (RegistrationService.validate ⟨rules⟩ data = true ↔
      ∀ r ∈ rules, Rule.validate r data = true) ∧
    ∀ pre fl post, rules = pre ++ fl :: post →
      (∀ r ∈ pre, Rule.validate r data = true) →
      Rule.validate fl data = false →
      RegistrationService.validate ⟨rules⟩ data = false ∧
      RegistrationService.invoked rules data = pre ++ [fl] := by
  refine ⟨validateList_eq_all rules data, ?_⟩
  intro pre fl post hrules hpre hf
  subst hrules
  exact validateList_first_failure data pre fl post hpre hf

/-- Witness for `registration_validate_spec`: with one failing prerequisite
rule followed by the schedule rule, validation returns false and only the
prerequisite rule is invoked. -/
theorem registration_validate_spec_witness :
    RegistrationService.validate ⟨[Rule.prerequisiteRule, Rule.jadwalBentrokRule]⟩
        ⟨20, ["Basis Data"], [], ⟨"Senin", "10:00"⟩, []⟩ = false ∧
    RegistrationService.invoked [Rule.prerequisiteRule, Rule.jadwalBentrokRule]
        ⟨20, ["Basis Data"], [], ⟨"Senin", "10:00"⟩, []⟩ = [Rule.prerequisiteRule] :=
  (registration_validate_spec [Rule.prerequisiteRule, Rule.jadwalBentrokRule]
      ⟨20, ["Basis Data"], [], ⟨"Senin", "10:00"⟩, []⟩).2
    [] Rule.prerequisiteRule [Rule.jadwalBentrokRule] rfl (by simp) (by decide)

/-- C3: the prerequisite rule passes exactly when every prerequisite is a
completed course; an element is missing exactly when it is a prerequisite not
completed; an empty prerequisite list always passes. -/
theorem prerequisite_rule_spec (data : StudentData) :
    (PrerequisiteRule.validate data = true ↔
      ∀ course ∈ data.prasyarat, course ∈ data.sudah_lulus) ∧
    (∀ course, course ∈ PrerequisiteRule.missing data ↔
      course ∈ data.prasyarat ∧ course ∉ data.sudah_lulus) ∧
    (data.prasyarat = [] → PrerequisiteRule.validate data = true) := by
  have key : PrerequisiteRule.validate data = true ↔
      PrerequisiteRule.missing data = [] := by
    unfold PrerequisiteRule.validate
    split <;> simp_all
  refine ⟨?_, ?_, ?_⟩
  · rw [key]
    simp [PrerequisiteRule.missing, List.filter_eq_nil_iff]
  · intro course
    simp [PrerequisiteRule.missing, List.mem_filter]
  · intro h
    rw [key]
    simp [PrerequisiteRule.missing, h]

/-- Witness for `prerequisite_rule_spec`: a record with no prerequisites
passes. -/
theorem prerequisite_rule_spec_witness :
    PrerequisiteRule.validate ⟨10, [], ["Algoritma"], ⟨"Senin", "08:00"⟩, []⟩ = true :=
  (prerequisite_rule_spec ⟨10, [], ["Algoritma"], ⟨"Senin", "08:00"⟩, []⟩).2.2 rfl

/-- The schedule-conflict loop returns false exactly when some item matches
both the day and the time. -/
theorem scan_eq_false_iff (hari jam : String) (l : List Jadwal) :
    JadwalBentrokRule.scan hari jam l = false ↔
      ∃ item ∈ l, item.hari = hari ∧ item.jam = jam := by
  induction l with
  | nil => simp [JadwalBentrokRule.scan]
  | cons item rest ih =>
    by_cases h1 : item.hari = hari <;> by_cases h2 : item.jam = jam <;>
      simp [JadwalBentrokRule.scan, h1, h2, ih]

/-- When no item before `item` matches and `item` matches both fields, the
loop examines exactly the items up to and including `item`. -/
theorem scanVisited_first_match (hari jam : String) :
    ∀ pre item post, (∀ p ∈ pre, ¬(p.hari = hari ∧ p.jam = jam)) →
      item.hari = hari → item.jam = jam →
      JadwalBentrokRule.scanVisited hari jam (pre ++ item :: post) = pre ++ [item] := by
  intro pre
  induction pre with
  | nil =>
    intro item post _ h1 h2
    simp [JadwalBentrokRule.scanVisited, h1, h2]
  | cons p ps ih =>
    intro item post hpre h1 h2
    have hp : ¬(p.hari = hari ∧ p.jam = jam) := hpre p (by simp)
    have hrest := ih item post (fun q hq => hpre q (List.mem_cons_of_mem _ hq)) h1 h2
    show JadwalBentrokRule.scanVisited hari jam (p :: (ps ++ item :: post)) =
      p :: (ps ++ [item])
    by_cases hph : p.hari = hari <;> by_cases hpj : p.jam = jam <;>
      simp_all [JadwalBentrokRule.scanVisited]

/-- C5: the schedule-conflict rule returns false exactly when some taken slot
matches the requested slot in both day and time; an empty taken-slot list
always passes; and the scan stops at the first matching slot, examining no
item after it. -/
theorem jadwal_bentrok_rule_spec (data : StudentData) :
    (JadwalBentrokRule.validate data = false ↔
      ∃ item ∈ data.jadwal_terambil,
        item.hari = data.jadwal.hari ∧ item.jam = data.jadwal.jam) ∧
    (data.jadwal_terambil = [] → JadwalBentrokRule.validate data = true) ∧
    (∀ pre item post, data.jadwal_terambil = pre ++ item :: post →
      (∀ p ∈ pre, ¬(p.hari = data.jadwal.hari ∧ p.jam = data.jadwal.jam)) →
      item.hari = data.jadwal.hari → item.jam = data.jadwal.jam →
      JadwalBentrokRule.scanVisited data.jadwal.hari data.jadwal.jam
        data.jadwal_terambil = pre ++ [item]) := by
  refine ⟨scan_eq_false_iff _ _ _, ?_, ?_⟩
  · intro h
    simp [JadwalBentrokRule.validate, h, JadwalBentrokRule.scan]
  · intro pre item post hsplit hpre h1 h2
    rw [hsplit]
    exact scanVisited_first_match _ _ pre item post hpre h1 h2

/-- Witness for `jadwal_bentrok_rule_spec`: an empty taken-slot list passes,
and on the sample record the scan stops at the single conflicting slot. -/
theorem jadwal_bentrok_rule_spec_witness :
    JadwalBentrokRule.validate ⟨10, [], [], ⟨"Senin", "08:00"⟩, []⟩ = true ∧
    JadwalBentrokRule.scanVisited student_data.jadwal.hari student_data.jadwal.jam
      student_data.jadwal_terambil = [⟨"Senin", "08:00"⟩] :=
  ⟨(jadwal_bentrok_rule_spec ⟨10, [], [], ⟨"Senin", "08:00"⟩, []⟩).2.1 rfl,
   (jadwal_bentrok_rule_spec student_data).2.2 [] ⟨"Senin", "08:00"⟩ [] rfl
     (by simp) rfl rfl⟩

/-- C10: the missing collection is an order-preserving sublist of the
prerequisite list, and it retains every occurrence (duplicates included) of
each prerequisite that is not completed while containing no completed course. -/
theorem missing_is_ordered_list (data : StudentData) :
    List.Sublist (PrerequisiteRule.missing data) data.prasyarat ∧
    ∀ course, List.count course (PrerequisiteRule.missing data) =
      if course ∈ data.sudah_lulus then 0
      else List.count course data.prasyarat := by
  constructor
  · exact List.filter_sublist _
  · intro course
    by_cases hc : course ∈ data.sudah_lulus
    · rw [if_pos hc, List.count_eq_zero]
      simp [PrerequisiteRule.missing, List.mem_filter, hc]
    · rw [if_neg hc]
      exact List.count_filter (by simp [hc])

/-- Python `==` on raw strings is string equality. -/
theorem valEq_vStr (a b : String) : valEq (Val.vStr a) (Val.vStr b) = (a == b) := rfl

/-- Membership scan over a raw string list agrees with `List.contains`. -/
theorem any_map_vStr (l : List String) (c : String) :
    (l.map Val.vStr).any (valEq (Val.vStr c)) = l.contains c := by
  induction l with
  | nil => rfl
  | cons x xs ih =>
    simp only [List.map_cons, List.any_cons, valEq_vStr, ih, List.contains_cons]

/-- The raw-value missing computation agrees with the pure one. -/
theorem filterE_eq_missing (pras lulus : List String) :
    (pras.map Val.vStr).filter
        (fun course => !((lulus.map Val.vStr).any (valEq course))) =
      (pras.filter (fun course => !(lulus.contains course))).map Val.vStr := by
  induction pras with
  | nil => rfl
  | cons x xs ih =>
    simp only [List.map_cons, List.filter_cons, any_map_vStr, ih]
    by_cases h : x ∈ lulus <;> simp [h]

/-- The raw-value SKS rule agrees with the pure one on well-formed records and
raises nothing. -/
theorem sks_validateE_ok (max_sks : Int) (d : StudentData) :
    SksLimitRule.validateE max_sks d.toVal =
      Except.ok (SksLimitRule.validate max_sks d) := by
  by_cases h : d.sks ≤ max_sks <;>
    simp [SksLimitRule.validateE, SksLimitRule.validate, StudentData.toVal, asDict,
      dictGet, valLeInt, h, List.find?, bind, Except.bind, pure, Except.pure]

/-- The raw-value prerequisite rule agrees with the pure one on well-formed
records and raises nothing. -/
theorem prereq_validateE_ok (d : StudentData) :
    PrerequisiteRule.validateE d.toVal = Except.ok (PrerequisiteRule.validate d) := by
  by_cases hm : PrerequisiteRule.missing d = []
  all_goals
    simp_all [PrerequisiteRule.validateE, PrerequisiteRule.validate,
      PrerequisiteRule.missing, StudentData.toVal, asDict, asList, dictGet,
      filterE_eq_missing, List.find?, bind, Except.bind, pure, Except.pure]
  split <;> simp_all

/-- The raw-value conflict scan agrees with the pure one on well-formed slot
lists and raises nothing. -/
theorem scanE_ok (hari jam : String) (l : List Jadwal) :
    JadwalBentrokRule.scanE (Val.vStr hari) (Val.vStr jam) (l.map Jadwal.toVal) =
      Except.ok (JadwalBentrokRule.scan hari jam l) := by
  induction l with
  | nil => rfl
  | cons item rest ih =>
    by_cases h1 : item.hari = hari <;> by_cases h2 : item.jam = jam <;>
      simp [JadwalBentrokRule.scanE, JadwalBentrokRule.scan, Jadwal.toVal, asDict,
        dictGet, valEq_vStr, h1, h2, ih, List.find?, bind, Except.bind, pure,
        Except.pure]

/-- The raw-value schedule-conflict rule agrees with the pure one on
well-formed records and raises nothing. -/
theorem jadwal_validateE_ok (d : StudentData) :
    JadwalBentrokRule.validateE d.toVal =
      Except.ok (JadwalBentrokRule.validate d) := by
  simp [JadwalBentrokRule.validateE, JadwalBentrokRule.validate, StudentData.toVal,
    Jadwal.toVal, asDict, asList, dictGet, scanE_ok, List.find?, bind, Except.bind,
    pure, Except.pure]

/-- Dispatch: every rule's raw-value validate agrees with the pure one on
well-formed records and raises nothing. -/
theorem rule_validateE_ok (r : Rule) (d : StudentData) :
    Rule.validateE r d.toVal = Except.ok (Rule.validate r d) := by
  cases r with
  | sksLimitRule max_sks => exact sks_validateE_ok max_sks d
  | prerequisiteRule => exact prereq_validateE_ok d
  | jadwalBentrokRule => exact jadwal_validateE_ok d

/-- The raw-value service loop agrees with the pure one on well-formed records
and raises nothing. -/
theorem validateListE_ok (rules : List Rule) (d : StudentData) :
    RegistrationService.validateListE rules d.toVal =
      Except.ok (RegistrationService.validateList rules d) := by
  induction rules with
  | nil => rfl
  | cons rule rest ih =>
    cases hb : Rule.validate rule d <;>
      simp [RegistrationService.validateListE, RegistrationService.validateList,
        rule_validateE_ok, hb, ih, bind, Except.bind, pure, Except.pure]

/-- C7: on every well-formed record (all five fields present with the data
model's types), every rule's validate and the service validate return a
boolean and raise no exception: in the raw-Python-value model, where dict
indexing and ill-typed operations return `Except.error`, each call returns
`Except.ok` of exactly the pure model's boolean. -/
theorem no_exception_on_well_formed (r : Rule) (rules : List Rule)
    (data : StudentData) :
    Rule.validateE r data.toVal = Except.ok (Rule.validate r data) ∧
    RegistrationService.validateListE rules data.toVal =
      Except.ok (RegistrationService.validateList rules data) :=
  ⟨rule_validateE_ok r data, validateListE_ok rules data⟩

end RefactorSolid
